import Mathlib

/-!
# Verification of the spacenet raster/vector pipeline

A shallow embedding of `src/spacenet.py`: the GeoTIFF loading steps
(`_proc_geotransform`, `_read_bands`), the PAN and PSRGB display paths
(`PAN.plot_bands`, `PSRGB._proc_rgb`), the GeoJSON road plotting
(`GeoJSON.plot_roads`) and the mosaic-bounds accumulation loop of
`plot_spacenet` (lines 139-142 and 171-174).

Numeric pixel and coordinate data is modelled over `ℚ` (the Python code
works on IEEE floats; all the claims checked here are exact-arithmetic
statements except where noted).  The `np.inf` sentinels of the mosaic
accumulator are modelled by `WithBot (WithTop ℚ)`, whose `⊥`/`↑⊤` play
the roles of `-inf`/`+inf` under `min`/`max` exactly as the floats do.
-/

namespace Spacenet

/-- A numpy 2-D array: a nominal shape together with the cell values.
`val` is total; cells outside `rows × cols` are irrelevant padding. -/
structure NpArray2 where
  rows : ℕ
  cols : ℕ
  val : ℕ → ℕ → ℚ

/-- `np.zeros((r, c))`. -/
def NpArray2.zeros (r c : ℕ) : NpArray2 :=
  ⟨r, c, fun _ _ => 0⟩

/-- numpy assignment `slot[:, :] = src` into a slot of shape
`(slotRows, slotCols)`: it succeeds exactly when each source dimension
equals the slot dimension or is 1 (numpy broadcasting), stretching any
1-sized source dimension; otherwise numpy raises a broadcast
`ValueError`, modelled as `none`. -/
def npBroadcastAssign (slotRows slotCols : ℕ) (src : NpArray2) : Option NpArray2 :=
  if (src.rows = slotRows ∨ src.rows = 1) ∧ (src.cols = slotCols ∨ src.cols = 1) then
    some ⟨slotRows, slotCols, fun r c =>
      src.val (if src.rows = 1 then 0 else r) (if src.cols = 1 then 0 else c)⟩
  else none

/-- What `gdal.Open` exposes of a raster file: band count, pixel
dimensions (`RasterXSize` = width, `RasterYSize` = height), the six
geotransform coefficients `gt[0] .. gt[5]`, and the per-band pixel grid
(`bandPixel i r c` is row `r`, column `c` of band `i` as
`GetRasterBand(i+1).ReadAsArray()` returns it). -/
structure GDALDataset where
  rasterCount : ℕ
  rasterXSize : ℕ
  rasterYSize : ℕ
  gt0 : ℚ
  gt1 : ℚ
  gt2 : ℚ
  gt3 : ℚ
  gt4 : ℚ
  gt5 : ℚ
  bandPixel : ℕ → ℕ → ℕ → ℚ

/-- The `self.extent` array of `GeoTIFF._proc_geotransform`, with its
stated component order `left, right, bottom, top` given field names. -/
structure Extent where
  left : ℚ
  right : ℚ
  bottom : ℚ
  top : ℚ
deriving DecidableEq

/-- `GeoTIFF._proc_geotransform` (spacenet.py lines 36-47):
`extent[0] = gt[0]`, `extent[1] = gt[0] + x_res*gt[1] + y_res*gt[2]`,
`extent[2] = gt[3] + x_res*gt[4] + y_res*gt[5]`, `extent[3] = gt[3]`.
Total: it performs only affine arithmetic and never fails. -/
def GeoTIFF.proc_geotransform (d : GDALDataset) : Extent :=
  { left := d.gt0
    right := d.gt0 + d.rasterXSize * d.gt1 + d.rasterYSize * d.gt2
    bottom := d.gt3 + d.rasterXSize * d.gt4 + d.rasterYSize * d.gt5
    top := d.gt3 }

/-- `band.ReadAsArray()` for band `i` (0-based): a numpy array of shape
`(RasterYSize, RasterXSize)`, i.e. rows indexed by image row. -/
def GeoTIFF.bandRead (d : GDALDataset) (i : ℕ) : NpArray2 :=
  ⟨d.rasterYSize, d.rasterXSize, fun r c => d.bandPixel i r c⟩

/-- The loop body of `GeoTIFF._read_bands` over a list of band indices:
`self.bands = np.zeros((n_bands, x_res, y_res))` makes each slot
`self.bands[i]` an array of shape `(x_res, y_res)`, and
`self.bands[i] = band.ReadAsArray()` is a broadcasting assignment into
that slot.  The whole read fails (numpy raises) as soon as one
assignment fails. -/
def GeoTIFF.read_bands_aux (d : GDALDataset) : List ℕ → Option (List NpArray2)
  | [] => some []
  | i :: is =>
    match npBroadcastAssign d.rasterXSize d.rasterYSize (GeoTIFF.bandRead d i),
        GeoTIFF.read_bands_aux d is with
    | some b, some bs => some (b :: bs)
    | _, _ => none

/-- `GeoTIFF._read_bands` (spacenet.py lines 49-54): read bands
`0 .. n_bands - 1` into the `(n_bands, x_res, y_res)` array. -/
def GeoTIFF.read_bands (d : GDALDataset) : Option (List NpArray2) :=
  GeoTIFF.read_bands_aux d (List.range d.rasterCount)

/-- The state a `GeoTIFF` object holds after `__post_init__`. -/
structure TiffTile where
  n_bands : ℕ
  x_res : ℕ
  y_res : ℕ
  extent : Extent
  bands : List NpArray2

/-- `GeoTIFF.__post_init__`: record the metadata, process the
geotransform and read the bands.  `none` when `_read_bands` raises. -/
def GeoTIFF.load (d : GDALDataset) : Option TiffTile :=
  (GeoTIFF.read_bands d).map fun bs =>
    { n_bands := d.rasterCount
      x_res := d.rasterXSize
      y_res := d.rasterYSize
      extent := GeoTIFF.proc_geotransform d
      bands := bs }

/-- What `PAN.plot_bands` hands to `ax.imshow`: the image array and the
world extent, `ax.imshow(self.bands[0], extent=self.extent)`. -/
structure PanDisplay where
  img : NpArray2
  ext : Extent

/-- `PAN.plot_bands` (spacenet.py lines 68-70): band 0 is passed to
`imshow` as-is, with no rescaling or other transformation. -/
def PAN.plot_bands (t : TiffTile) : PanDisplay :=
  ⟨t.bands.getD 0 (NpArray2.zeros 0 0), t.extent⟩

/- ### Concrete datasets used by the claims -/

/-- The spec's end-to-end tile: `geotransform=[100, 2, 0, 200, 0, -2]`,
`width=10`, `height=5`. -/
def demoGeo : GDALDataset :=
  { rasterCount := 1, rasterXSize := 10, rasterYSize := 5
    gt0 := 100, gt1 := 2, gt2 := 0, gt3 := 200, gt4 := 0, gt5 := -2
    bandPixel := fun _ _ _ => 0 }

/-- `demoGeo` with entirely different band pixel data (and band count). -/
def demoGeoOtherPixels : GDALDataset :=
  { rasterCount := 3, rasterXSize := 10, rasterYSize := 5
    gt0 := 100, gt1 := 2, gt2 := 0, gt3 := 200, gt4 := 0, gt5 := -2
    bandPixel := fun i r c => (i : ℚ) + r * c + 1 }

/- ### C1, C9: the extent computation -/

/-- C1: for every tile with geotransform `[x0, a, b, y0, c, d]`, width
`W` and height `H`, the extent is exactly
`{left: x0, right: x0 + W*a + H*b, bottom: y0 + W*c + H*d, top: y0}`
(the function is total, so it never fails), and in particular the tile
with geotransform `[100, 2, 0, 200, 0, -2]`, `W = 10`, `H = 5` gets
extent `{left: 100, right: 120, bottom: 190, top: 200}`. -/
theorem extent_affine_formula :
    (∀ d : GDALDataset,
      GeoTIFF.proc_geotransform d =
        { left := d.gt0
          right := d.gt0 + d.rasterXSize * d.gt1 + d.rasterYSize * d.gt2
          bottom := d.gt3 + d.rasterXSize * d.gt4 + d.rasterYSize * d.gt5
          top := d.gt3 }) ∧
    GeoTIFF.proc_geotransform demoGeo = ⟨100, 120, 190, 200⟩ := by
  refine ⟨fun d => rfl, ?_⟩
  show Extent.mk _ _ _ _ = _
  norm_num [GeoTIFF.proc_geotransform, demoGeo]

/-- C9: the extent is a pure function of the geotransform and the pixel
dimensions alone: two datasets agreeing on those (whatever their band
pixel data or band count) get identical extents. -/
theorem extent_depends_only_on_geotransform_and_size (d1 d2 : GDALDataset)
    (h0 : d1.gt0 = d2.gt0) (h1 : d1.gt1 = d2.gt1) (h2 : d1.gt2 = d2.gt2)
    (h3 : d1.gt3 = d2.gt3) (h4 : d1.gt4 = d2.gt4) (h5 : d1.gt5 = d2.gt5)
    (hx : d1.rasterXSize = d2.rasterXSize) (hy : d1.rasterYSize = d2.rasterYSize) :
    GeoTIFF.proc_geotransform d1 = GeoTIFF.proc_geotransform d2 := by
  simp only [GeoTIFF.proc_geotransform, h0, h1, h2, h3, h4, h5, hx, hy]

/-- Witness for C9: `demoGeo` and `demoGeoOtherPixels` share the
geotransform and pixel dimensions but have different band data; their
extents agree. -/
theorem extent_depends_only_on_geotransform_and_size_witness :
    GeoTIFF.proc_geotransform demoGeo = GeoTIFF.proc_geotransform demoGeoOtherPixels :=
  extent_depends_only_on_geotransform_and_size demoGeo demoGeoOtherPixels
    rfl rfl rfl rfl rfl rfl rfl rfl

/- ### The mosaic-bounds accumulator of `plot_spacenet` -/

/-- The value space of the plotting-bounds accumulator: rationals
together with the two IEEE infinities.  `⊥` stands for `-np.inf`, `↑⊤`
for `np.inf`, and `min`/`max` on this order agree with Python's
`min`/`max` on floats with infinities. -/
abbrev NFloat := WithBot (WithTop ℚ)

/-- A finite float. -/
def NFloat.ofRat (q : ℚ) : NFloat := ((q : WithTop ℚ) : NFloat)

/-- `np.inf`. -/
def NFloat.posInf : NFloat := ((⊤ : WithTop ℚ) : NFloat)

/-- `-np.inf`. -/
def NFloat.negInf : NFloat := (⊥ : NFloat)

/-- The four running bounds of `plot_spacenet` (`x_min`, `x_max`,
`y_min`, `y_max`). -/
structure MosaicBounds where
  x_min : NFloat
  x_max : NFloat
  y_min : NFloat
  y_max : NFloat
deriving DecidableEq

/-- The initialization of the bounds (spacenet.py lines 139-142):
`x_min = np.inf`, `x_max = -np.inf`, `y_min = np.inf`,
`y_max = -np.inf`. -/
def initBounds : MosaicBounds :=
  ⟨NFloat.posInf, NFloat.negInf, NFloat.posInf, NFloat.negInf⟩

/-- One loop iteration of the bounds update (spacenet.py lines 171-174):
`x_min = min(x_min, tif.extent[0])`, `x_max = max(x_max, tif.extent[1])`,
`y_min = min(y_min, tif.extent[2])`, `y_max = max(y_max, tif.extent[3])`. -/
def foldBounds (b : MosaicBounds) (e : Extent) : MosaicBounds :=
  { x_min := min b.x_min (NFloat.ofRat e.left)
    x_max := max b.x_max (NFloat.ofRat e.right)
    y_min := min b.y_min (NFloat.ofRat e.bottom)
    y_max := max b.y_max (NFloat.ofRat e.top) }

/-- The whole `for path in tif_paths` loop, as far as the bounds are
concerned: fold every tile's extent into the accumulator in order. -/
def foldExtents (b : MosaicBounds) (l : List Extent) : MosaicBounds :=
  l.foldl foldBounds b

theorem foldBounds_right_comm (b : MosaicBounds) (e1 e2 : Extent) :
    foldBounds (foldBounds b e1) e2 = foldBounds (foldBounds b e2) e1 := by
  simp only [foldBounds, min_right_comm, inf_right_comm, sup_right_comm]

theorem foldExtents_perm {l l' : List Extent} (h : l.Perm l') :
    ∀ b : MosaicBounds, foldExtents b l = foldExtents b l' := by
  induction h with
  | nil => intro b; rfl
  | cons x _ ih => intro b; exact ih (foldBounds b x)
  | swap x y l =>
    intro b
    show List.foldl foldBounds (foldBounds (foldBounds b y) x) l =
      List.foldl foldBounds (foldBounds (foldBounds b x) y) l
    rw [foldBounds_right_comm]
  | trans _ _ ih1 ih2 => intro b; rw [ih1 b, ih2 b]

/-- C4: one fold step takes `{xMin, xMax, yMin, yMax}` and an extent to
`{min(xMin, left), max(xMax, right), min(yMin, bottom), max(yMax, top)}`,
and the fold is order-independent: folding any finite collection of
extents in any order (from any starting accumulator, in particular the
starting sentinel) yields the same final bounds. -/
theorem foldBounds_formula_and_order_independent :
    (∀ (b : MosaicBounds) (e : Extent),
      foldBounds b e =
        { x_min := min b.x_min (NFloat.ofRat e.left)
          x_max := max b.x_max (NFloat.ofRat e.right)
          y_min := min b.y_min (NFloat.ofRat e.bottom)
          y_max := max b.y_max (NFloat.ofRat e.top) }) ∧
    ∀ (l l' : List Extent), l.Perm l' →
      ∀ b : MosaicBounds, foldExtents b l = foldExtents b l' :=
  ⟨fun _ _ => rfl, fun _ _ h => foldExtents_perm h⟩

/-- Witness for C4: the three extents `A`, `B`, `C` of the spec's
property list, folded in two different orders from the starting
sentinel, give the same bounds. -/
theorem foldBounds_formula_and_order_independent_witness :
    foldExtents initBounds [⟨0, 1, 0, 1⟩, ⟨2, 3, 2, 3⟩, ⟨4, 5, 4, 5⟩] =
      foldExtents initBounds [⟨4, 5, 4, 5⟩, ⟨0, 1, 0, 1⟩, ⟨2, 3, 2, 3⟩] :=
  foldBounds_formula_and_order_independent.2
    [⟨0, 1, 0, 1⟩, ⟨2, 3, 2, 3⟩, ⟨4, 5, 4, 5⟩]
    [⟨4, 5, 4, 5⟩, ⟨0, 1, 0, 1⟩, ⟨2, 3, 2, 3⟩]
    (by decide) initBounds

/-- C8: a fold step never shrinks the bounds: `x_min` and `y_min` never
increase, `x_max` and `y_max` never decrease. -/
theorem foldBounds_monotone :
    ∀ (b : MosaicBounds) (e : Extent),
      (foldBounds b e).x_min ≤ b.x_min ∧ b.x_max ≤ (foldBounds b e).x_max ∧
      (foldBounds b e).y_min ≤ b.y_min ∧ b.y_max ≤ (foldBounds b e).y_max :=
  fun _ _ => ⟨min_le_left _ _, le_max_left _ _, min_le_left _ _, le_max_left _ _⟩

theorem foldExtents_x_min_le (l : List Extent) :
    ∀ b : MosaicBounds, (foldExtents b l).x_min ≤ b.x_min := by
  induction l with
  | nil => intro b; exact le_refl _
  | cons e l ih =>
    intro b
    exact le_trans (ih (foldBounds b e)) (min_le_left _ _)

/-- C7: folding zero extents leaves the accumulator at the sentinel
`{+inf, -inf, +inf, -inf}`, and folding any non-empty collection of
(finite, rational-valued) extents drives `x_min` strictly below the
sentinel's `+inf`, so the result is distinguishable from the sentinel. -/
theorem foldExtents_sentinel :
    foldExtents initBounds [] = initBounds ∧
    ∀ (e : Extent) (l : List Extent),
      (foldExtents initBounds (e :: l)).x_min < initBounds.x_min := by
  refine ⟨rfl, fun e l => ?_⟩
  have h1 : (foldExtents initBounds (e :: l)).x_min ≤ (foldBounds initBounds e).x_min :=
    foldExtents_x_min_le l (foldBounds initBounds e)
  have h2 : (foldBounds initBounds e).x_min ≤ NFloat.ofRat e.left :=
    min_le_right _ _
  have h3 : NFloat.ofRat e.left < initBounds.x_min := by
    show NFloat.ofRat e.left < NFloat.posInf
    exact WithBot.coe_lt_coe.2 (WithTop.coe_lt_top e.left)
  exact lt_of_le_of_lt (le_trans h1 h2) h3

/- ### Shape of the loaded bands (C10) and the PAN display path (C6) -/

theorem npBroadcastAssign_eq_some (sr sc : ℕ) (src b : NpArray2)
    (h : npBroadcastAssign sr sc src = some b) :
    b = ⟨sr, sc, fun r c =>
      src.val (if src.rows = 1 then 0 else r) (if src.cols = 1 then 0 else c)⟩ := by
  unfold npBroadcastAssign at h
  split at h
  · exact (Option.some.inj h).symm
  · cases h

theorem read_bands_aux_cons (d : GDALDataset) (i : ℕ) (is : List ℕ)
    (bs : List NpArray2) (h : GeoTIFF.read_bands_aux d (i :: is) = some bs) :
    ∃ b bs', bs = b :: bs' ∧
      npBroadcastAssign d.rasterXSize d.rasterYSize (GeoTIFF.bandRead d i) = some b ∧
      GeoTIFF.read_bands_aux d is = some bs' := by
  unfold GeoTIFF.read_bands_aux at h
  revert h
  cases h1 : npBroadcastAssign d.rasterXSize d.rasterYSize (GeoTIFF.bandRead d i) with
  | none => intro h; cases h
  | some b =>
    cases h2 : GeoTIFF.read_bands_aux d is with
    | none => intro h; cases h
    | some bs' =>
      intro h
      exact ⟨b, bs', (Option.some.inj h).symm, rfl, rfl⟩

theorem read_bands_aux_spec (d : GDALDataset) :
    ∀ (is : List ℕ) (bs : List NpArray2), GeoTIFF.read_bands_aux d is = some bs →
      bs.length = is.length ∧
      ∀ b ∈ bs, b.rows = d.rasterXSize ∧ b.cols = d.rasterYSize := by
  intro is
  induction is with
  | nil =>
    intro bs h
    cases h
    exact ⟨rfl, fun b hb => absurd hb (List.not_mem_nil b)⟩
  | cons i is ih =>
    intro bs h
    obtain ⟨b, bs', rfl, hassign, htail⟩ := read_bands_aux_cons d i is bs h
    obtain ⟨hlen, hshape⟩ := ih bs' htail
    refine ⟨by simp [hlen], fun a ha => ?_⟩
    rcases List.mem_cons.1 ha with rfl | ha'
    · rw [npBroadcastAssign_eq_some _ _ _ _ hassign]
      exact ⟨rfl, rfl⟩
    · exact hshape a ha'

/-- C10: a successfully loaded tile holds exactly `n_bands` band
arrays, every one of them shaped `x_res × y_res` (width × height). -/
theorem loaded_tile_bands_shape (d : GDALDataset) (t : TiffTile)
    (ht : GeoTIFF.load d = some t) :
    t.bands.length = t.n_bands ∧
    ∀ b ∈ t.bands, b.rows = t.x_res ∧ b.cols = t.y_res := by
  unfold GeoTIFF.load at ht
  rcases Option.map_eq_some'.1 ht with ⟨bs, hbs, hteq⟩
  subst hteq
  obtain ⟨hlen, hshape⟩ := read_bands_aux_spec d _ bs hbs
  exact ⟨by simpa using hlen, hshape⟩

/-- A placeholder tile for reading loaded options. -/
def tile0 : TiffTile := ⟨0, 0, 0, ⟨0, 0, 0, 0⟩, []⟩

/-- A concrete single-band 3×3 dataset whose first row of pixel values
is `0, 5, 10` (the spec's flattened PAN example values). -/
def demoPan : GDALDataset :=
  { rasterCount := 1, rasterXSize := 3, rasterYSize := 3
    gt0 := 0, gt1 := 1, gt2 := 0, gt3 := 0, gt4 := 0, gt5 := -1
    bandPixel := fun _ r c =>
      if r = 0 then (if c = 0 then 0 else if c = 1 then 5 else 10) else 0 }

/-- Witness for C10: loading `demoPan` succeeds, and the resulting tile
has one band, shaped 3 × 3. -/
theorem loaded_tile_bands_shape_witness :
    ((GeoTIFF.load demoPan).getD tile0).bands.length =
      ((GeoTIFF.load demoPan).getD tile0).n_bands ∧
    ∀ b ∈ ((GeoTIFF.load demoPan).getD tile0).bands,
      b.rows = ((GeoTIFF.load demoPan).getD tile0).x_res ∧
      b.cols = ((GeoTIFF.load demoPan).getD tile0).y_res :=
  loaded_tile_bands_shape demoPan _ rfl

/-- C6: for a loaded single-or-more-band tile (band data present and the
square shape the assignment in `_read_bands` requires), `PAN.plot_bands`
shows band 0 unmodified: every displayed pixel equals the corresponding
raw pixel that `ReadAsArray` produced, with no rescaling or any other
transformation. -/
theorem pan_display_preserves_band0 (d : GDALDataset) (hb : 0 < d.rasterCount)
    (hsq : d.rasterXSize = d.rasterYSize) (t : TiffTile)
    (ht : GeoTIFF.load d = some t) :
    ∀ r < d.rasterXSize, ∀ c < d.rasterYSize,
      (PAN.plot_bands t).img.val r c = d.bandPixel 0 r c := by
  rcases Option.map_eq_some'.1 ht with ⟨bs, hbs, hteq⟩
  subst hteq
  unfold GeoTIFF.read_bands at hbs
  obtain ⟨n, hn⟩ : ∃ n, d.rasterCount = n + 1 := ⟨d.rasterCount - 1, by omega⟩
  rw [hn, List.range_succ_eq_map] at hbs
  obtain ⟨b, bs', rfl, hassign, -⟩ := read_bands_aux_cons d 0 _ bs hbs
  have hb0 := npBroadcastAssign_eq_some _ _ _ _ hassign
  intro r hr c hc
  show (List.getD (b :: bs') 0 (NpArray2.zeros 0 0)).val r c = d.bandPixel 0 r c
  rw [List.getD_cons_zero, hb0]
  show (GeoTIFF.bandRead d 0).val
      (if (GeoTIFF.bandRead d 0).rows = 1 then 0 else r)
      (if (GeoTIFF.bandRead d 0).cols = 1 then 0 else c) = d.bandPixel 0 r c
  by_cases h1 : d.rasterYSize = 1
  · have hr0 : r = 0 := by omega
    have hc0 : c = 0 := by omega
    subst hr0; subst hc0
    simp [GeoTIFF.bandRead]
  · have h2 : ¬ d.rasterXSize = 1 := by rw [hsq]; exact h1
    simp [GeoTIFF.bandRead, h1, h2]

/-- Witness for C6: on the loaded `demoPan` tile the displayed pixel at
row 0, column 2 is the raw source pixel there (the value `10` of the
spec's `[0, 5, 10]` example row). -/
theorem pan_display_preserves_band0_witness :
    (PAN.plot_bands ((GeoTIFF.load demoPan).getD tile0)).img.val 0 2 =
      demoPan.bandPixel 0 0 2 :=
  pan_display_preserves_band0 demoPan (by decide) rfl _ rfl 0 (by decide) 2 (by decide)

/- ### The PSRGB normalization (`PSRGB._proc_rgb`, C2 and C3) -/

/-- The `self.rgb` stack before scaling: `rgb[:, :, i] = self.bands[i]`,
so position `(x, y, i)` holds `bands[i][x][y]`. -/
def PSRGB.rgbRaw (t : TiffTile) (x y i : ℕ) : ℚ :=
  (t.bands.getD i (NpArray2.zeros t.x_res t.y_res)).val x y

/-- All values of channel `i` across the `(x_res, y_res)` grid — the
data `np.min(self.rgb, axis=(0, 1))` and `np.max` range over. -/
def PSRGB.channelVals (t : TiffTile) (i : ℕ) : List ℚ :=
  (List.range t.x_res).flatMap fun x =>
    (List.range t.y_res).map fun y => PSRGB.rgbRaw t x y i

/-- The minimum of a list of values, as `np.min` computes it (`np.min`
raises on an empty axis; the `0` default is never used under the
nonempty-grid hypotheses below). -/
def listMin : List ℚ → ℚ
  | [] => 0
  | v :: vs => vs.foldl min v

/-- The maximum of a list of values, as `np.max` computes it. -/
def listMax : List ℚ → ℚ
  | [] => 0
  | v :: vs => vs.foldl max v

/-- `rgb_min[i]`, i.e. `np.min(self.rgb, axis=(0, 1))[i]`. -/
def PSRGB.rgb_min (t : TiffTile) (i : ℕ) : ℚ :=
  listMin (PSRGB.channelVals t i)

/-- `rgb_max[i]`, i.e. `np.max(self.rgb, axis=(0, 1))[i]`. -/
def PSRGB.rgb_max (t : TiffTile) (i : ℕ) : ℚ :=
  listMax (PSRGB.channelVals t i)

/-- The scaling step of `PSRGB._proc_rgb` (spacenet.py lines 90-93):
`self.rgb = (self.rgb - rgb_min) / (rgb_max - rgb_min)` at position
`(x, y, i)`.  The division carries no guard in the source; it is
modelled by total field division on `ℚ` (whose convention is `q / 0 =
0`), and the unguarded zero denominator of a constant channel — where
numpy would produce `NaN` — is exhibited separately for C3. -/
def PSRGB.proc_rgb (t : TiffTile) (x y i : ℕ) : ℚ :=
  (PSRGB.rgbRaw t x y i - PSRGB.rgb_min t i) /
    (PSRGB.rgb_max t i - PSRGB.rgb_min t i)

theorem foldl_min_le_init (vs : List ℚ) : ∀ v : ℚ, vs.foldl min v ≤ v := by
  induction vs with
  | nil => intro v; exact le_refl v
  | cons a vs ih =>
    intro v
    exact le_trans (ih (min v a)) (min_le_left v a)

theorem foldl_min_le_mem (vs : List ℚ) :
    ∀ (v a : ℚ), a ∈ vs → vs.foldl min v ≤ a := by
  induction vs with
  | nil => intro v a ha; cases ha
  | cons x vs ih =>
    intro v a ha
    rcases List.mem_cons.1 ha with rfl | ha'
    · exact le_trans (foldl_min_le_init vs (min v a)) (min_le_right v a)
    · exact ih (min v x) a ha'

theorem foldl_min_mem (vs : List ℚ) : ∀ v : ℚ, vs.foldl min v ∈ v :: vs := by
  induction vs with
  | nil => intro v; exact List.mem_singleton.2 rfl
  | cons a vs ih =>
    intro v
    have h := ih (min v a)
    rcases List.mem_cons.1 h with he | hm
    · rcases min_choice v a with hc | hc
      · exact List.mem_cons.2 (Or.inl (he.trans hc))
      · exact List.mem_cons.2 (Or.inr (List.mem_cons.2 (Or.inl (he.trans hc))))
    · exact List.mem_cons.2 (Or.inr (List.mem_cons.2 (Or.inr hm)))

theorem foldl_max_ge_init (vs : List ℚ) : ∀ v : ℚ, v ≤ vs.foldl max v := by
  induction vs with
  | nil => intro v; exact le_refl v
  | cons a vs ih =>
    intro v
    exact le_trans (le_max_left v a) (ih (max v a))

theorem foldl_max_ge_mem (vs : List ℚ) :
    ∀ (v a : ℚ), a ∈ vs → a ≤ vs.foldl max v := by
  induction vs with
  | nil => intro v a ha; cases ha
  | cons x vs ih =>
    intro v a ha
    rcases List.mem_cons.1 ha with rfl | ha'
    · exact le_trans (le_max_right v a) (foldl_max_ge_init vs (max v a))
    · exact ih (max v x) a ha'

theorem foldl_max_mem (vs : List ℚ) : ∀ v : ℚ, vs.foldl max v ∈ v :: vs := by
  induction vs with
  | nil => intro v; exact List.mem_singleton.2 rfl
  | cons a vs ih =>
    intro v
    have h := ih (max v a)
    rcases List.mem_cons.1 h with he | hm
    · rcases max_choice v a with hc | hc
      · exact List.mem_cons.2 (Or.inl (he.trans hc))
      · exact List.mem_cons.2 (Or.inr (List.mem_cons.2 (Or.inl (he.trans hc))))
    · exact List.mem_cons.2 (Or.inr (List.mem_cons.2 (Or.inr hm)))

theorem listMin_le (l : List ℚ) (a : ℚ) (ha : a ∈ l) : listMin l ≤ a := by
  cases l with
  | nil => cases ha
  | cons v vs =>
    rcases List.mem_cons.1 ha with rfl | ha'
    · exact foldl_min_le_init vs a
    · exact foldl_min_le_mem vs v a ha'

theorem listMin_mem (l : List ℚ) (h : l ≠ []) : listMin l ∈ l := by
  cases l with
  | nil => exact absurd rfl h
  | cons v vs => exact foldl_min_mem vs v

theorem listMax_ge (l : List ℚ) (a : ℚ) (ha : a ∈ l) : a ≤ listMax l := by
  cases l with
  | nil => cases ha
  | cons v vs =>
    rcases List.mem_cons.1 ha with rfl | ha'
    · exact foldl_max_ge_init vs a
    · exact foldl_max_ge_mem vs v a ha'

theorem listMax_mem (l : List ℚ) (h : l ≠ []) : listMax l ∈ l := by
  cases l with
  | nil => exact absurd rfl h
  | cons v vs => exact foldl_max_mem vs v

theorem mem_channelVals (t : TiffTile) (i x y : ℕ)
    (hx : x < t.x_res) (hy : y < t.y_res) :
    PSRGB.rgbRaw t x y i ∈ PSRGB.channelVals t i :=
  List.mem_flatMap.2 ⟨x, List.mem_range.2 hx,
    List.mem_map.2 ⟨y, List.mem_range.2 hy, rfl⟩⟩

theorem of_mem_channelVals (t : TiffTile) (i : ℕ) (a : ℚ)
    (ha : a ∈ PSRGB.channelVals t i) :
    ∃ x < t.x_res, ∃ y < t.y_res, PSRGB.rgbRaw t x y i = a := by
  rcases List.mem_flatMap.1 ha with ⟨x, hx, hmap⟩
  rcases List.mem_map.1 hmap with ⟨y, hy, he⟩
  exact ⟨x, List.mem_range.1 hx, y, List.mem_range.1 hy, he⟩

/-- C2: on a grid with at least one pixel, with every channel
non-constant, the scaled stack lies in `[0, 1]` everywhere, and each
channel attains `0` at a pixel holding its minimum and `1` at a pixel
holding its maximum. -/
theorem psrgb_proc_rgb_normalizes (t : TiffTile) (hx : 0 < t.x_res) (hy : 0 < t.y_res)
    (hnc : ∀ i < t.n_bands, ∃ x1 < t.x_res, ∃ y1 < t.y_res, ∃ x2 < t.x_res,
      ∃ y2 < t.y_res, PSRGB.rgbRaw t x1 y1 i ≠ PSRGB.rgbRaw t x2 y2 i) :
    ∀ i < t.n_bands,
      (∀ x < t.x_res, ∀ y < t.y_res,
        0 ≤ PSRGB.proc_rgb t x y i ∧ PSRGB.proc_rgb t x y i ≤ 1) ∧
      (∃ x < t.x_res, ∃ y < t.y_res, PSRGB.proc_rgb t x y i = 0) ∧
      (∃ x < t.x_res, ∃ y < t.y_res, PSRGB.proc_rgb t x y i = 1) := by
  intro i hi
  obtain ⟨x1, hx1, y1, hy1, x2, hx2, y2, hy2, hne⟩ := hnc i hi
  have hv1 := mem_channelVals t i x1 y1 hx1 hy1
  have hv2 := mem_channelVals t i x2 y2 hx2 hy2
  have hmM : PSRGB.rgb_min t i < PSRGB.rgb_max t i := by
    have hle : PSRGB.rgb_min t i ≤ PSRGB.rgb_max t i :=
      le_trans (listMin_le _ _ hv1) (listMax_ge _ _ hv1)
    rcases eq_or_lt_of_le hle with he | h
    · exfalso
      apply hne
      have e1 : PSRGB.rgbRaw t x1 y1 i = PSRGB.rgb_min t i :=
        le_antisymm (he ▸ listMax_ge _ _ hv1) (listMin_le _ _ hv1)
      have e2 : PSRGB.rgbRaw t x2 y2 i = PSRGB.rgb_min t i :=
        le_antisymm (he ▸ listMax_ge _ _ hv2) (listMin_le _ _ hv2)
      rw [e1, e2]
    · exact h
  have hpos : 0 < PSRGB.rgb_max t i - PSRGB.rgb_min t i := sub_pos.2 hmM
  refine ⟨fun x hx' y hy' => ?_, ?_, ?_⟩
  · have hmem := mem_channelVals t i x y hx' hy'
    have h1 : PSRGB.rgb_min t i ≤ PSRGB.rgbRaw t x y i := listMin_le _ _ hmem
    have h2 : PSRGB.rgbRaw t x y i ≤ PSRGB.rgb_max t i := listMax_ge _ _ hmem
    constructor
    · exact div_nonneg (sub_nonneg.2 h1) (le_of_lt hpos)
    · rw [PSRGB.proc_rgb, div_le_one hpos]
      exact sub_le_sub_right h2 _
  · have hmm : PSRGB.rgb_min t i ∈ PSRGB.channelVals t i :=
      listMin_mem _ (List.ne_nil_of_mem hv1)
    obtain ⟨x, hx', y, hy', he⟩ := of_mem_channelVals t i _ hmm
    exact ⟨x, hx', y, hy', by rw [PSRGB.proc_rgb, he, sub_self, zero_div]⟩
  · have hmm : PSRGB.rgb_max t i ∈ PSRGB.channelVals t i :=
      listMax_mem _ (List.ne_nil_of_mem hv1)
    obtain ⟨x, hx', y, hy', he⟩ := of_mem_channelVals t i _ hmm
    exact ⟨x, hx', y, hy', by rw [PSRGB.proc_rgb, he, div_self (ne_of_gt hpos)]⟩

/-- A 2-channel 2×1 tile: channel 0 holds `10, 20`, channel 1 holds
`3, 7` — both channels non-constant. -/
def demoRgbTile : TiffTile :=
  { n_bands := 2, x_res := 2, y_res := 1, extent := ⟨0, 0, 0, 0⟩
    bands := [⟨2, 1, fun x _ => if x = 0 then 10 else 20⟩,
              ⟨2, 1, fun x _ => if x = 0 then 3 else 7⟩] }

/-- Witness for C2: channel 0 of `demoRgbTile` normalizes into `[0, 1]`
and attains both endpoints. -/
theorem psrgb_proc_rgb_normalizes_witness :
    (∀ x < demoRgbTile.x_res, ∀ y < demoRgbTile.y_res,
      0 ≤ PSRGB.proc_rgb demoRgbTile x y 0 ∧ PSRGB.proc_rgb demoRgbTile x y 0 ≤ 1) ∧
    (∃ x < demoRgbTile.x_res, ∃ y < demoRgbTile.y_res,
      PSRGB.proc_rgb demoRgbTile x y 0 = 0) ∧
    (∃ x < demoRgbTile.x_res, ∃ y < demoRgbTile.y_res,
      PSRGB.proc_rgb demoRgbTile x y 0 = 1) :=
  psrgb_proc_rgb_normalizes demoRgbTile (by decide) (by decide) (by decide) 0
    (by decide)

/-- The spec's C3 failing tile: channel 0 ranges over `[10, 20]`,
channel 1 is constant `7`. -/
def demoConstTile : TiffTile :=
  { n_bands := 2, x_res := 2, y_res := 1, extent := ⟨0, 0, 0, 0⟩
    bands := [⟨2, 1, fun x _ => if x = 0 then 10 else 20⟩,
              ⟨2, 1, fun _ _ => 7⟩] }

/-- C3: `_proc_rgb` scales every channel by the unguarded expression
`(value - rgb_min) / (rgb_max - rgb_min)`; on `demoConstTile` the
constant channel 1 has `rgb_max = rgb_min = 7`, so the divisor of that
channel is exactly `0` — under numpy's float semantics the unguarded
`0/0` yields `NaN` for every pixel of the channel, instead of the
defined all-zero/all-0.5 output (or `NormalizationError`) the claim
requires. -/
theorem psrgb_const_channel_unguarded_zero_divisor :
    PSRGB.rgb_min demoConstTile 1 = 7 ∧ PSRGB.rgb_max demoConstTile 1 = 7 ∧
    PSRGB.rgb_max demoConstTile 1 - PSRGB.rgb_min demoConstTile 1 = 0 ∧
    PSRGB.rgb_min demoConstTile 0 = 10 ∧ PSRGB.rgb_max demoConstTile 0 = 20 := by
  have h1 : PSRGB.rgb_min demoConstTile 1 = 7 := by decide
  have h2 : PSRGB.rgb_max demoConstTile 1 = 7 := by decide
  refine ⟨h1, h2, ?_, by decide, by decide⟩
  rw [h1, h2, sub_self]

/- ### `GeoJSON.plot_roads` (C5) -/

/-- A world coordinate pair. -/
abbrev Coord := ℚ × ℚ

/-- A drawn road: the ordered coordinate pairs of one plotted line. -/
abbrev Polyline := List Coord

/-- The `geometry.coordinates` value of one road feature: either one
flat polyline (a list of `[x, y]` pairs) or a multi-part geometry (a
list of nested sub-paths, each a list of pairs). -/
inductive GeoCoords where
  | flat (pts : List Coord)
  | multi (parts : List (List Coord))
deriving DecidableEq

/-- Whether `np.array` turns the nested sub-paths into a rectangular
`(k, L, 2)` array: every sub-path must have one common nonzero length
(numpy raises `ValueError` on ragged nesting, and `x, y = arr.T` raises
`ValueError` when the leading axis is empty or the point axis is not of
size 2). -/
def npRectangular : List (List Coord) → Bool
  | [] => false
  | p :: ps => decide (0 < p.length) && ps.all fun q => q.length = p.length

/-- One iteration of the `for road in ...` body of `GeoJSON.plot_roads`
(spacenet.py lines 115-125): `np.array(road[...][...])` followed by
`x, y = arr.T` and `ax.plot(x, y)`.  `some lines` is the list of lines
the call draws (for a 2-D `x`/`y`, matplotlib draws one line per
column, i.e. one per sub-path); `none` means `np.array`/unpacking
raised `ValueError`. -/
def roadLines : GeoCoords → Option (List Polyline)
  | .flat pts => if pts.isEmpty then none else some [pts]
  | .multi parts => if npRectangular parts then some parts else none

/-- `GeoJSON.plot_roads`: plot each feature, except that a `ValueError`
is swallowed by the `except ValueError: pass` and the feature draws
nothing.  The result is every polyline drawn on the axes; no exception
escapes the loop for these inputs. -/
def GeoJSON.plot_roads (features : List GeoCoords) : List Polyline :=
  features.flatMap fun road => (roadLines road).getD []

/-- A document with one flat 3-point line and one multi-part feature
whose two nested sub-paths have the same length. -/
def docMultiEqualLen : List GeoCoords :=
  [GeoCoords.flat [(0, 0), (1, 1), (2, 2)],
   GeoCoords.multi [[(3, 3), (4, 4)], [(5, 5), (6, 6)]]]

/-- A document with one flat 3-point line and one multi-part feature
whose nested sub-paths have different lengths (ragged). -/
def docMultiRagged : List GeoCoords :=
  [GeoCoords.flat [(0, 0), (1, 1), (2, 2)],
   GeoCoords.multi [[(3, 3), (4, 4)], [(5, 5), (6, 6), (7, 7)]]]

/-- Counterexample to C5: on a document holding one flat 3-point line
and one multi-part feature whose sub-paths happen to have equal length,
the multi-part feature is NOT skipped — `np.array` builds a 3-D array,
the transpose unpacks without error, and both sub-paths are drawn — so
three polylines come out, not exactly one. -/
theorem plot_roads_multi_not_always_skipped :
    GeoJSON.plot_roads docMultiEqualLen =
      [[(0, 0), (1, 1), (2, 2)], [(3, 3), (4, 4)], [(5, 5), (6, 6)]] ∧
    ((GeoJSON.plot_roads docMultiEqualLen).length == 1) = false := by
  exact ⟨rfl, rfl⟩

/-- C5 as amended: `plot_roads` never raises on these documents (the
loop body is total — `ValueError` is caught and the feature draws
nothing), a multi-part feature is skipped exactly when its nested
structure does not form a rectangular numpy array (ragged sub-paths,
no sub-path, or empty sub-paths), a rectangular multi-part feature is
instead drawn as one line per sub-path, and on a document with one
flat 3-point line plus one ragged multi-part feature the result is
exactly the one flat polyline. -/
theorem plot_roads_skips_ragged_multi :
    (∀ parts : List (List Coord),
      (roadLines (GeoCoords.multi parts) = none ↔ npRectangular parts = false) ∧
      (npRectangular parts = true → roadLines (GeoCoords.multi parts) = some parts)) ∧
    GeoJSON.plot_roads docMultiRagged = [[(0, 0), (1, 1), (2, 2)]] := by
  refine ⟨fun parts => ?_, rfl⟩
  constructor
  · cases h : npRectangular parts <;> simp [roadLines, h]
  · intro h
    simp [roadLines, h]

/-- Witness for the amended C5: the ragged multi-part feature of
`docMultiRagged` is skipped. -/
theorem plot_roads_skips_ragged_multi_witness :
    roadLines (GeoCoords.multi [[(3, 3), (4, 4)], [(5, 5), (6, 6), (7, 7)]]) = none :=
  (plot_roads_skips_ragged_multi.1 _).1.2 rfl

end Spacenet
